import Mathlib

/-!
Shallow embedding of `src/pubsub/redis.go` (anycable-go pubsub subscriber):
the reconnect supervisor (`Start`), the session loop (`listen`), the
backoff calculator (`nextRetry`), and the sentinel connection pool
configuration.  Go errors are modelled as `Nat` identifiers (an error
value is never nil in the modelled paths); durations are modelled in
seconds as `Nat`.
-/

namespace Redis

/-- Error identifier standing for a non-nil Go `error` value. -/
abbrev Err := Nat

/-- Constant `maxReconnectAttempts` from `src/pubsub/redis.go`. -/
def maxReconnectAttempts : Nat := 5

/-- The bound passed to `rand.Intn` inside `nextRetry`: `step * 4`. -/
def randIntnArg (step : Nat) : Nat := step * 4

/-- Function `nextRetry` from `src/pubsub/redis.go`, with the random draw
`rand.Intn(step*4)` made explicit as the argument `r` (so `r < step*4`
for any real execution).  Result is the delay in seconds:
`(step*step) + r*(step+1)`. -/
def nextRetry (step r : Nat) : Nat :=
  (step * step) + r * (step + 1)

/-- One event yielded by `psc.Receive()` in the receive goroutine of
`listen`: a message with payload bytes, a subscription confirmation, or
an error. -/
inductive RecvEvent
  | message (data : List Nat)
  | subscription (channel : String)
  | error (e : Err)
deriving DecidableEq, Repr

/-- Observable trace of the receive goroutine of `listen`:
payloads passed to `node.HandlePubsub` in order, values sent to the
`done` channel in order, and the number of `psc.Receive()` calls that
returned an event. -/
structure RecvTrace where
  handled : List (List Nat)
  doneWrites : List Err
  receives : Nat
deriving DecidableEq, Repr

/-- The receive goroutine of `listen`, as written in the source: for
each received event, a `redis.Message` is dispatched to
`node.HandlePubsub`, a `redis.Subscription` is only logged, and an
`error` is sent to `done`.  In the Go source the `break` statement in
the `error` case exits only the `switch`, not the `for` loop, so the
loop continues to the next `Receive` after an error event; the loop
only stops when `Receive` yields nothing more (here: the end of the
event list). -/
def receiveLoop : List RecvEvent → RecvTrace
  | [] => ⟨[], [], 0⟩
  | e :: rest =>
    let t := receiveLoop rest
    match e with
    | .message d => ⟨d :: t.handled, t.doneWrites, t.receives + 1⟩
    | .subscription _ => ⟨t.handled, t.doneWrites, t.receives + 1⟩
    | .error v => ⟨t.handled, v :: t.doneWrites, t.receives + 1⟩

/-- The payload of a message event, `none` for the other events. -/
def messagePayload : RecvEvent → Option (List Nat)
  | .message d => some d
  | _ => none

/-- One iteration of the foreground `select` in `listen`: either the
1-minute ticker fires and `psc.Ping("")` returns `pingErr` (`none` for
success), or a value is available on `done` and the `recv` branch is
chosen. -/
inductive FgStep
  | tick (pingErr : Option Err)
  | recv
deriving DecidableEq, Repr

/-- Result of the foreground of `listen`: `retNil` models the Go
function returning a nil error (successful return), `retErr e` models
returning the non-nil error `e`, and `blocked` models the foreground
still running or blocked (no return within the modelled steps). -/
inductive ListenResult
  | retNil
  | retErr (e : Err)
  | blocked
deriving DecidableEq, Repr

/-- Observable trace of the foreground of `listen`: the returned value,
whether `psc.Unsubscribe()` was issued, and how many `select`
iterations ran before returning. -/
structure FgTrace where
  result : ListenResult
  unsubscribed : Bool
  stepsRun : Nat
deriving DecidableEq, Repr

/-- The foreground loop of `listen` (`loop: for err == nil { select ... }`
followed by `psc.Unsubscribe(); return <-done`), over a schedule of
`select` outcomes and the queue `q` of values written to `done` and not
yet read.  A successful ping continues the loop; a failed ping breaks
out of the loop, unsubscribes and returns the next value read from
`done` (blocking if none is available); the `done` branch of the
`select` returns the received value immediately. -/
def fgLoop : List FgStep → List Err → FgTrace
  | [], _ => ⟨.blocked, false, 0⟩
  | .tick none :: rest, q =>
    let t := fgLoop rest q
    ⟨t.result, t.unsubscribed, t.stepsRun + 1⟩
  | .tick (some _) :: _, q =>
    match q with
    | [] => ⟨.blocked, true, 1⟩
    | e :: _ => ⟨.retErr e, true, 1⟩
  | .recv :: _, q =>
    match q with
    | [] => ⟨.blocked, false, 1⟩
    | e :: _ => ⟨.retErr e, false, 1⟩

/-- Function `listen` from `src/pubsub/redis.go`, one session: `dial` is the
error (if any) of obtaining the connection, `sub` the error (if any) of
`psc.Subscribe`, and on success the foreground loop runs over the given
schedule and `done` queue.  (The reset of `reconnectAttempt` to 0 after
a successful subscribe is modelled at the supervisor level below.) -/
def listen (dial sub : Option Err) (steps : List FgStep) (q : List Err) :
    FgTrace :=
  match dial with
  | some e => ⟨.retErr e, false, 0⟩
  | none =>
    match sub with
    | some e => ⟨.retErr e, false, 0⟩
    | none => fgLoop steps q

/-- One session as the supervisor observes it: whether `psc.Subscribe`
succeeded (which resets `reconnectAttempt` to 0 inside `listen`).
Every modelled session ends with a non-nil error (`listen` has no
nil-returning path, proved below), so the error identity is irrelevant
to the supervisor's control flow. -/
structure GoSession where
  subscribed : Bool
deriving DecidableEq, Repr

/-- Result of `Start`: the parse error of `url.Parse`, the terminal
error after too many reconnect attempts (carrying the Go error string),
or still looping (the modelled session list is exhausted). -/
inductive StartResult
  | parseError (msg : String)
  | exceeded (msg : String)
  | pending
deriving DecidableEq, Repr

/-- Observable trace of a run of `Start`: the result, the number of
`listen` calls made, the arguments passed to `nextRetry` before each
`time.Sleep` (one entry per backoff sleep performed), and every value
assigned to `s.reconnectAttempt`, in order. -/
structure StartTrace where
  result : StartResult
  sessionsRun : Nat
  sleepArgs : List Nat
  counterWrites : List Nat
deriving DecidableEq, Repr

/-- The retry loop of `Start` from `src/pubsub/redis.go`, over the list
of sessions it will run, starting from counter value `a`: run `listen`
(a successful subscribe sets the counter to 0 mid-session), increment
the counter, return `errors.New("Redis reconnect attempts exceeded")`
once the counter reaches `maxReconnectAttempts`, otherwise sleep for
`nextRetry(counter)` and loop. -/
def runStart : List GoSession → Nat → StartTrace
  | [], _ => ⟨.pending, 0, [], []⟩
  | s :: rest, a =>
    let afterReset := if s.subscribed then 0 else a
    let a1 := afterReset + 1
    let writes := if s.subscribed then [0, a1] else [a1]
    if a1 ≥ maxReconnectAttempts then
      ⟨.exceeded "Redis reconnect attempts exceeded", 1, [], writes⟩
    else
      let t := runStart rest a1
      ⟨t.result, t.sessionsRun + 1, a1 :: t.sleepArgs,
        writes ++ t.counterWrites⟩

/-- Whether a string contains an ASCII control character. -/
def containsCtl (s : String) : Bool :=
  s.toList.any fun c => c.toNat < 32

/-- Modelled from the spec: `Start` validates the configured URL once
at startup with Go's `net/url` `Parse` (standard library, not part of
this repository); per the spec's malformed-URL scenario, a URL
containing a control character (such as `"not a url \x00"`) is rejected
with a parse error. -/
def urlParse (s : String) : Option String :=
  if containsCtl s then some "net/url: invalid control character in URL"
  else none

/-- Function `Start` from `src/pubsub/redis.go`: parse the URL first and fail
fast on a parse error; otherwise enter the retry loop with the counter
at its constructed value 0. -/
def start (url : String) (sessions : List GoSession) : StartTrace :=
  match urlParse url with
  | some e => ⟨.parseError e, 0, [], []⟩
  | none => runStart sessions 0

/-- A broker connection, reduced to the reply of its role probe. -/
structure Conn where
  role : String
deriving DecidableEq, Repr

/-- Predicate `TestOnBorrow` of the sentinel-mode pool in `listen`: a connection
whose role probe does not answer `"master"` fails validation with the
error `"Role check failed"`. -/
def testOnBorrow (c : Conn) : Option String :=
  if c.role = "master" then none else some "Role check failed"

/-- Configuration of the sentinel-mode `redis.Pool` in `listen`. -/
structure PoolConfig where
  maxIdle : Nat
  maxActive : Nat
  idleTimeoutSecs : Nat
  wait : Bool
deriving DecidableEq, Repr

/-- The pool configuration literals from `src/pubsub/redis.go`:
`MaxIdle: 3, MaxActive: 64, Wait: true, IdleTimeout: 240 * time.Second`. -/
def sentinelPoolConfig : PoolConfig :=
  { maxIdle := 3, maxActive := 64, idleTimeoutSecs := 240, wait := true }

/-- Modelled from the spec: the borrow operation of the connection pool
(implemented by the redigo library, not part of this repository) —
every idle connection taken from the pool is validated with the
`TestOnBorrow` check before being handed out, and a connection failing
the check is discarded and the pool dials again. -/
def poolGet (idle : List Conn) (dialed : Conn) : Conn :=
  match idle with
  | [] => dialed
  | c :: rest => if (testOnBorrow c).isNone then c else poolGet rest dialed

/-- Helper: no path of the foreground loop produces a nil return. -/
theorem fgLoop_no_nil (steps : List FgStep) (q : List Err) :
    (fgLoop steps q).result ≠ ListenResult.retNil := by
  induction steps generalizing q with
  | nil => simp [fgLoop]
  | cons s rest ih =>
    match s with
    | .tick none => simpa [fgLoop] using ih q
    | .tick (some pe) => cases q <;> simp [fgLoop]
    | .recv => cases q <;> simp [fgLoop]

/-- Helper: every argument recorded for `nextRetry` by the retry loop is
a successor, hence positive. -/
theorem runStart_sleepArgs_pos (sessions : List GoSession) (a : Nat) :
    ∀ x ∈ (runStart sessions a).sleepArgs, 1 ≤ x := by
  induction sessions generalizing a with
  | nil => simp [runStart]
  | cons s rest ih =>
    intro x hx
    rcases s with ⟨b⟩
    cases b
    · by_cases hge : a + 1 ≥ maxReconnectAttempts
      · simp [runStart, hge] at hx
      · simp [runStart, hge] at hx
        rcases hx with h | h
        · omega
        · exact ih (a + 1) x h
    · simp [runStart, maxReconnectAttempts] at hx
      rcases hx with h | h
      · omega
      · exact ih 1 x h

/-- C1: in a run of `Start` whose first five sessions all fail without a
successful subscribe, `Start` returns the error
`"Redis reconnect attempts exceeded"` right after the 5th failure:
exactly 5 sessions are attempted (whatever sessions could follow are
not run), and exactly 4 backoff sleeps are performed, none after the
5th failure. -/
theorem start_exceeded_after_five_failures
    (url : String) (hurl : urlParse url = none)
    (s1 s2 s3 s4 s5 : GoSession) (rest : List GoSession)
    (h1 : s1.subscribed = false) (h2 : s2.subscribed = false)
    (h3 : s3.subscribed = false) (h4 : s4.subscribed = false)
    (h5 : s5.subscribed = false) :
    start url (s1 :: s2 :: s3 :: s4 :: s5 :: rest) =
      ⟨.exceeded "Redis reconnect attempts exceeded", 5, [1, 2, 3, 4],
        [1, 2, 3, 4, 5]⟩ := by
  simp [start, hurl, runStart, h1, h2, h3, h4, h5, maxReconnectAttempts]

/-- Witness for C1 at a concrete run. -/
theorem start_exceeded_after_five_failures_witness :
    urlParse "redis://localhost:6379/5" = none ∧
    start "redis://localhost:6379/5"
        [⟨false⟩, ⟨false⟩, ⟨false⟩, ⟨false⟩, ⟨false⟩] =
      ⟨.exceeded "Redis reconnect attempts exceeded", 5, [1, 2, 3, 4],
        [1, 2, 3, 4, 5]⟩ :=
  ⟨rfl, start_exceeded_after_five_failures "redis://localhost:6379/5" rfl
    ⟨false⟩ ⟨false⟩ ⟨false⟩ ⟨false⟩ ⟨false⟩ [] rfl rfl rfl rfl rfl⟩

/-- C2: the counter update rule — while processing one session from
counter value `a`, the values assigned to `reconnectAttempt` start with
`0` then `0 + 1` when the session subscribed successfully (reset to 0
immediately on subscribe, then incremented by exactly 1 after the
failure that ends the session), and with `a + 1` otherwise — and the
concrete scenario: 3 dial failures followed by a subscribed session
produce the counter values 1, 2, 3, then 0 (then 1 after that session
fails in turn). -/
theorem reconnectAttempt_counter_rule :
    (∀ (s : GoSession) (rest : List GoSession) (a : Nat),
      ∃ tail, (runStart (s :: rest) a).counterWrites =
        (if s.subscribed then [0, 0 + 1] else [a + 1]) ++ tail) ∧
    (runStart [⟨false⟩, ⟨false⟩, ⟨false⟩, ⟨true⟩] 0).counterWrites =
      [1, 2, 3, 0, 1] := by
  constructor
  · intro s rest a
    rcases s with ⟨b⟩
    cases b
    · by_cases hge : a + 1 ≥ maxReconnectAttempts
      · exact ⟨[], by simp [runStart, hge]⟩
      · exact ⟨(runStart rest (a + 1)).counterWrites,
          by simp [runStart, hge]⟩
    · exact ⟨(runStart rest 1).counterWrites,
        by simp [runStart, maxReconnectAttempts]⟩
  · rfl

/-- C3: for every attempt count `n ≥ 1` and every possible random draw
`r < n*4`, the backoff delay is at least `n²` seconds and strictly less
than `n² + 4n(n+1)` seconds. -/
theorem nextRetry_bounds (n r : Nat) (hn : 1 ≤ n) (hr : r < randIntnArg n) :
    n * n ≤ nextRetry n r ∧ nextRetry n r < n * n + 4 * n * (n + 1) := by
  unfold nextRetry
  unfold randIntnArg at hr
  refine ⟨Nat.le_add_right _ _, ?_⟩
  have h1 : r + 1 ≤ n * 4 := hr
  nlinarith

/-- Witness for C3 at `n = 1`, `r = 0`. -/
theorem nextRetry_bounds_witness :
    1 ≤ 1 ∧ 0 < randIntnArg 1 ∧
    (1 * 1 ≤ nextRetry 1 0 ∧ nextRetry 1 0 < 1 * 1 + 4 * 1 * (1 + 1)) :=
  ⟨by decide, by decide, nextRetry_bounds 1 0 (by decide) (by decide)⟩

/-- C4 (counterexample to the claim, exhibiting the code's behavior):
after the receive goroutine pushes the first error event (error 7) to
`done`, the loop does not stop — the `break` in the Go source exits
only the `switch` — so two further receives happen, a later message is
still dispatched, and a second value (error 9) is written to `done`. -/
theorem receiveLoop_continues_after_error :
    receiveLoop [.error 7, .message [1, 2], .error 9] =
      ⟨[[1, 2]], [7, 9], 3⟩ := rfl

/-- C5: a session never returns a nil error — every termination of
`listen` delivers exactly one (non-nil) error value to the supervisor,
whether it ends via a failed ping (which unsubscribes and returns the
value read from `done`) or via an error received from `done`; in the
latter case the foreground returns immediately, so the ping activity is
not left running (no further `select` iterations are executed). -/
theorem listen_always_returns_one_error :
    (∀ dial sub steps q,
        (listen dial sub steps q).result ≠ ListenResult.retNil) ∧
    (∀ (pe : Err) (rest : List FgStep) (e : Err) (q : List Err),
        fgLoop (.tick (some pe) :: rest) (e :: q) = ⟨.retErr e, true, 1⟩) ∧
    (∀ (rest : List FgStep) (e : Err) (q : List Err),
        fgLoop (.recv :: rest) (e :: q) = ⟨.retErr e, false, 1⟩) := by
  refine ⟨?_, ?_, ?_⟩
  · intro dial sub steps q
    match dial with
    | some e => simp [listen]
    | none =>
      match sub with
      | some e => simp [listen]
      | none => simpa [listen] using fgLoop_no_nil steps q
  · intro pe rest e q
    rfl
  · intro rest e q
    rfl

/-- C6: with the malformed URL `"not a url \x00"` (containing a control
character), `Start` fails immediately with the parse error: no session
is attempted, no counter write happens, and no backoff sleep occurs —
for every possible continuation. -/
theorem start_malformed_url_fails_fast (sessions : List GoSession) :
    start "not a url \x00" sessions =
      ⟨.parseError "net/url: invalid control character in URL",
        0, [], []⟩ := rfl

/-- C7: the receive goroutine passes exactly the payloads of the message
events to `node.HandlePubsub`, once each, in receive order, with the
bytes unchanged; subscription confirmations contribute nothing. -/
theorem receiveLoop_forwards_messages (evs : List RecvEvent) :
    (receiveLoop evs).handled = evs.filterMap messagePayload := by
  induction evs with
  | nil => rfl
  | cons e rest ih => cases e <;> simp [receiveLoop, messagePayload, ih]

/-- C8: the sentinel-mode pool is configured with max idle 3, max
active 64, idle timeout 240 seconds and blocking wait; every connection
handed out from the idle list passed the primary-role check, and an
idle connection failing the check is never handed out — the pool dials
again instead. -/
theorem sentinel_pool_config_and_role_check :
    sentinelPoolConfig.maxIdle = 3 ∧ sentinelPoolConfig.maxActive = 64 ∧
    sentinelPoolConfig.idleTimeoutSecs = 240 ∧
    sentinelPoolConfig.wait = true ∧
    (∀ (idle : List Conn) (d : Conn),
      poolGet idle d = d ∨
        (poolGet idle d ∈ idle ∧ (poolGet idle d).role = "master")) ∧
    (∀ (c d : Conn), c.role ≠ "master" → poolGet [c] d = d) := by
  refine ⟨rfl, rfl, rfl, rfl, ?_, ?_⟩
  · intro idle d
    induction idle with
    | nil => exact Or.inl rfl
    | cons c rest ih =>
      by_cases hc : c.role = "master"
      · exact Or.inr ⟨by simp [poolGet, testOnBorrow, hc], by
          simp [poolGet, testOnBorrow, hc]⟩
      · have : poolGet (c :: rest) d = poolGet rest d := by
          simp [poolGet, testOnBorrow, hc]
        rw [this]
        rcases ih with h | ⟨hmem, hrole⟩
        · exact Or.inl h
        · exact Or.inr ⟨List.mem_cons_of_mem _ hmem, hrole⟩
  · intro c d hc
    simp [poolGet, testOnBorrow, hc]

/-- Witness for C8: a pooled non-primary connection is replaced by a
fresh dial. -/
theorem sentinel_pool_role_check_witness :
    (⟨"slave"⟩ : Conn).role ≠ "master" ∧
    poolGet [⟨"slave"⟩] ⟨"master"⟩ = ⟨"master"⟩ :=
  ⟨by decide, sentinel_pool_config_and_role_check.2.2.2.2.2
    ⟨"slave"⟩ ⟨"master"⟩ (by decide)⟩

/-- C9: every argument the supervisor passes to `nextRetry` is at least
1 (the counter is always incremented before the call), so the bound
`step * 4` given to `rand.Intn` inside `nextRetry` is always positive. -/
theorem nextRetry_arg_always_positive
    (url : String) (sessions : List GoSession) (x : Nat)
    (hx : x ∈ (start url sessions).sleepArgs) :
    1 ≤ x ∧ 0 < randIntnArg x := by
  unfold start at hx
  constructor
  · match h : urlParse url with
    | some e => rw [h] at hx; simp at hx
    | none => rw [h] at hx; exact runStart_sleepArgs_pos sessions 0 x hx
  · have h1 : 1 ≤ x := by
      match h : urlParse url with
      | some e => rw [h] at hx; simp at hx
      | none => rw [h] at hx; exact runStart_sleepArgs_pos sessions 0 x hx
    unfold randIntnArg
    omega

/-- Witness for C9 at a concrete run with two failing sessions. -/
theorem nextRetry_arg_always_positive_witness :
    1 ∈ (start "" [⟨false⟩, ⟨false⟩]).sleepArgs ∧
    (1 ≤ 1 ∧ 0 < randIntnArg 1) :=
  ⟨by decide, nextRetry_arg_always_positive "" [⟨false⟩, ⟨false⟩] 1
    (by decide)⟩

/-- C10: when the session ends because a ping fails (after any number
of successful ticks), the value `listen` returns is the one read from
the `done` channel — the head of the `done` queue — for every ping
error `pe`, which never appears in the result: the ping error only
triggers the unsubscribe and is discarded. -/
theorem ping_failure_returns_done_error
    (n : Nat) (pe : Err) (rest : List FgStep) (e : Err) (q : List Err) :
    fgLoop (List.replicate n (.tick none) ++ .tick (some pe) :: rest)
        (e :: q) =
      ⟨.retErr e, true, n + 1⟩ := by
  induction n with
  | zero => rfl
  | succ k ih => simp [List.replicate_succ, fgLoop, ih]

end Redis
